import Mathlib

/-!
Verification of `get_project_structure` from `copycode.py`.

The Python function walks a directory tree with `os.walk`, filters
directories and files by fixed policy sets, and renders a textual
snapshot: an indented structure listing followed by the contents of the
included files.

The filesystem is modelled as a finite tree (`DirTree`): each directory
carries a name, its child directories and its files.  A file carries its
name, its size in bytes, and the outcome of opening and reading it as
UTF-8 text (`Except String String`: an error message, or the decoded
text).  The string primitives used by the Python code (`str.replace`,
`in`, `str.count`, `str.startswith`, `os.path.join`, `os.path.basename`,
`os.path.relpath`, `pathlib.Path.suffix`, `sorted`) are modelled
character-exactly on `String.data`.
-/

/-- Test whether the first character list is a prefix of the second
(used to model Python substring search and `str.startswith`). -/
def isPre : List Char → List Char → Bool
  | [], _ => true
  | _ :: _, [] => false
  | a :: p, b :: s => a == b && isPre p s

/-- Helper for Python's substring operator: does `pat` occur in the list? -/
def containsAux (pat : List Char) : List Char → Bool
  | [] => isPre pat []
  | c :: t => isPre pat (c :: t) || containsAux pat t

/-- Python's substring operator `pat in hay`. -/
def pyContains (hay pat : String) : Bool := containsAux pat.data hay.data

/-- Helper for Python's `s.replace(pat, '')`: scan left to right, deleting
each non-overlapping occurrence of `pat`.  The extra `Nat` is fuel; since
every step consumes at least one character, fuel `s.length` suffices and
the fuel-exhausted branch is never reached from `pyReplace`. -/
def replaceAux (pat : List Char) : Nat → List Char → List Char
  | _, [] => []
  | 0, s => s
  | fuel + 1, c :: rest =>
    if !pat.isEmpty && isPre pat (c :: rest) then
      replaceAux pat fuel (rest.drop (pat.length - 1))
    else
      c :: replaceAux pat fuel rest

/-- Python `s.replace(pat, '')`: delete every (left-to-right,
non-overlapping) occurrence of `pat` in `s`. -/
def pyReplace (s pat : String) : String := ⟨replaceAux pat.data s.data.length s.data⟩

/-- Python `s.count(os.sep)` with `os.sep = '/'` (POSIX). -/
def sepCount (s : String) : Nat := s.data.count '/'

/-- The level computation of copycode.py line 59:
`root.replace(start_path, '').count(os.sep)`. -/
def pyLevel (sp path : String) : Nat := sepCount (pyReplace path sp)

/-- Python `s.startswith(c)` for a single character `c`. -/
def strStarts (s : String) (c : Char) : Bool := s.data.head? == some c

/-- Does `s` end with the character `c`? -/
def strEnds (s : String) (c : Char) : Bool := s.data.getLast? == some c

/-- Python `s.startswith(pre)` for a string `pre`. -/
def strStartsWith (s pre : String) : Bool := isPre pre.data s.data

/-- Helper for `os.path.basename`: the characters after the last `'/'`
(accumulator holds the current segment, reversed). -/
def baseAux (cur : List Char) : List Char → List Char
  | [] => cur.reverse
  | c :: t => if c == '/' then baseAux [] t else baseAux (c :: cur) t

/-- Python `os.path.basename` on POSIX: everything after the last `'/'`. -/
def pyBasename (s : String) : String := ⟨baseAux [] s.data⟩

/-- Python `os.path.join(p, n)` on POSIX, for a single component `n`. -/
def pyJoin (p n : String) : String :=
  if strStarts n '/' then n
  else if p == "" || strEnds p '/' then p ++ n else p ++ "/" ++ n

/-- Index of the last occurrence of `c`, modelling Python `s.rfind(c)`
(with `none` for "not found"). -/
def rfindChar (c : Char) : List Char → Option Nat
  | [] => none
  | x :: xs =>
    match rfindChar c xs with
    | some i => some (i + 1)
    | none => if x == c then some 0 else none

/-- `pathlib.Path(name).suffix` for a bare filename: the segment from the
last dot on, provided that dot is neither the first nor the last
character of the name; otherwise the empty string.  (This is the code of
`PurePath.suffix`: `i = name.rfind('.'); name[i:] if 0 < i < len(name)-1
else ''`.) -/
def pySuffix (name : String) : String :=
  match rfindChar '.' name.data with
  | some i => if 0 < i ∧ i < name.data.length - 1 then ⟨name.data.drop i⟩ else ""
  | none => ""

/-- The extension in the words of claim C1 (NOT the code): the suffix
starting at the last `.` of the filename, or the empty string if the name
contains no `.`.  Kept separate from `pySuffix` for the refinement
comparison; it differs from the code exactly on names whose last dot is
the first or the last character (e.g. `.bashrc`). -/
def spec_extension (name : String) : String :=
  match rfindChar '.' name.data with
  | some i => ⟨name.data.drop i⟩
  | none => ""

/-- Python `"-" * 40`. -/
def dashes40 : String := ⟨List.replicate 40 '-'⟩

/-- Python `s * n` for strings. -/
def strRepeat (s : String) (n : Nat) : String := String.join (List.replicate n s)

/-- Python `s[:-n]`: drop the last `n` characters. -/
def strDropRight (s : String) (n : Nat) : String := ⟨s.data.take (s.data.length - n)⟩

/-- Python `f"{size/1024:.1f}"` for a file size in bytes: the size in KiB
rounded to one decimal place with round-half-to-even.  `size / 1024` is
exact in a binary double for every realistic size (below `2^53`), so the
formatted value is the exact rational `size/1024` rounded to tenths; the
tenths value is `5 * size / 512`. -/
def format1f (size : Nat) : String :=
  let num := 5 * size
  let q := num / 512
  let r := num % 512
  let n := if r > 256 then q + 1 else if r = 256 then (if q % 2 = 0 then q else q + 1) else q
  toString (n / 10) ++ "." ++ toString (n % 10)

/-- `IGNORED_DIRS` of copycode.py (lines 9-15). -/
def IGNORED_DIRS : List String :=
  ["__pycache__", ".venv", "venv", "env",
   "node_modules", ".git", ".idea", ".pytest_cache",
   ".vscode", "build", "dist", "target",
   "migrations", "coverage", ".next",
   ".cache", ".husky", ".github"]

/-- `INCLUDED_EXTENSIONS` of copycode.py (lines 18-31). -/
def INCLUDED_EXTENSIONS : List String :=
  [".py", ".jsx", ".tsx", ".js", ".ts", ".css", ".scss", ".sass", ".html",
   "", ".yml", ".yaml", ".dockerfile", ".json", ".lock", ".txt", ".config.js"]

/-- `IGNORED_FILES` of copycode.py (lines 34-39): substrings whose presence
anywhere in a filename excludes the file. -/
def IGNORED_FILES : List String :=
  ["setupTests.", "reportWebVitals.", ".test.", ".spec.", "types.d.ts", ".gitignore"]

/-- `IMPORTANT_FILES` of copycode.py (lines 42-52): exact filenames always
included. -/
def IMPORTANT_FILES : List String :=
  ["package.json", "package-lock.json", "yarn.lock", "requirements.txt",
   "Dockerfile", "docker-compose.yml", "tailwind.config.js", "postcss.config.js"]

/-- A file as seen by the walk: its name, its size in bytes
(`os.path.getsize`), and the outcome of `open(...).read()` — the decoded
text, or the message of the exception the read raised. -/
structure FileNode where
  name : String
  size : Nat
  readResult : Except String String

mutual
/-- A directory: its name, child directories and files.  Models the
static filesystem state one invocation of the builder observes. -/
inductive DirTree where
  | node (name : String) (subdirs : DirList) (files : List FileNode)

/-- List of child directories (mutual with `DirTree`). -/
inductive DirList where
  | nil
  | cons (d : DirTree) (ds : DirList)
end

/-- Name of a directory node. -/
def DirTree.name : DirTree → String
  | .node n _ _ => n

/-- Append of child-directory lists. -/
def DirList.append : DirList → DirList → DirList
  | .nil, l => l
  | .cons d ds, l => .cons d (ds.append l)

/-- Do all child directories satisfy `p`? -/
def DirList.all (p : DirTree → Bool) : DirList → Bool
  | .nil => true
  | .cons d ds => p d && ds.all p

/-- Python code line 80: `any(ignore in file for ignore in IGNORED_FILES)`. -/
def isIgnoredFile (name : String) : Bool :=
  IGNORED_FILES.any (fun ig => pyContains name ig)

/-- Python code line 84: `(Path(file).suffix in INCLUDED_EXTENSIONS) or
(file in IMPORTANT_FILES)`. -/
def matchesInclusion (name : String) : Bool :=
  INCLUDED_EXTENSIONS.contains (pySuffix name) || IMPORTANT_FILES.contains name

/-- A file that survives the substring exclusion (line 80) and passes the
inclusion test (line 84): exactly the files that get a structure entry and
a content block. -/
def isIncludedFile (f : FileNode) : Bool :=
  !isIgnoredFile f.name && matchesInclusion f.name

/-- Python code line 65 (negated filter criterion): keep `d` when
`d not in IGNORED_DIRS and not d.startswith('.')`. -/
def keepDir (d : DirTree) : Bool :=
  !IGNORED_DIRS.contains d.name && !strStarts d.name '.'

/-- Lexicographic (code-point) `≤` on character lists: Python's string
order, used by `sorted(files)`. -/
def charListLe : List Char → List Char → Bool
  | [], _ => true
  | _ :: _, [] => false
  | a :: p, b :: s => if a = b then charListLe p s else decide (a < b)

/-- Insert into a sorted list, keeping earlier elements first among equal
keys (stability). -/
def insertSorted (f : FileNode) : List FileNode → List FileNode
  | [] => [f]
  | g :: gs => if charListLe f.name.data g.name.data then f :: g :: gs else g :: insertSorted f gs

/-- Python `sorted(files)` (line 78): stable sort by name in code-point
order.  A stable sort with a total preorder is unique, so stable insertion
sort yields the same list as Python's timsort. -/
def sortFiles : List FileNode → List FileNode
  | [] => []
  | f :: fs => insertSorted f (sortFiles fs)

/-- Structure lines contributed by one file (code lines 78-86): nothing if
the name is substring-excluded or fails the inclusion test, else the single
entry `f"{indent}├── {file}"`. -/
def fileStructLines (indent : String) (f : FileNode) : List String :=
  if isIgnoredFile f.name then []
  else if matchesInclusion f.name then [indent ++ "├── " ++ f.name]
  else []

/-- Content lines contributed by one file (code lines 89-115), given the
relative path components `rel` of the directory holding it: nothing if the
file is excluded or fails the inclusion test; a skip notice if the size
exceeds 100 KiB; the header/separator/content block on a successful read;
an error block if the read raised.  `os.path.relpath(file_path,
start_path)` is modelled as the component path below the root, which is
its value for paths built by `os.path.join` below `start_path`. -/
def fileContentLines (rel : List String) (f : FileNode) : List String :=
  if isIgnoredFile f.name then []
  else if matchesInclusion f.name then
    if f.size > 100 * 1024 then
      ["\nFile: " ++ f.name ++ " (skipped - too large, " ++ format1f f.size ++ "KB)", ""]
    else
      match f.readResult with
      | .ok content =>
        ["\nFile: " ++ String.intercalate "/" (rel ++ [f.name]),
         dashes40, content, dashes40, ""]
      | .error e => ["Error reading " ++ f.name ++ ": " ++ e, ""]
  else []

/-- The structure entry of a visited directory (code lines 68-75):
`f"{indent[:-4]}├── {dir_name}/"` at positive level, `dir_name + '/'` at
level 0, with `dir_name = os.path.basename(root)`. -/
def dirEntry (sp path : String) : String :=
  if pyLevel sp path > 0 then
    strDropRight (strRepeat "│   " (pyLevel sp path)) 4 ++ "├── " ++ pyBasename path ++ "/"
  else pyBasename path ++ "/"

mutual
/-- The body of the `os.walk` loop (code lines 57-115) for one visited
directory and, recursively, everything below it.  Returns the pair
(structure lines, content lines) this subtree contributes.  `sp` is
`start_path` as passed by the caller, `path` the `root` string `os.walk`
yields for this directory, `rel` its components below `start_path`.
If `max_depth != -1 and level > max_depth` the directory is skipped and
not descended into (`dirs.clear(); continue`). -/
def walkDir (sp : String) (md : Int) (path : String) (rel : List String) :
    DirTree → List String × List String
  | .node _nm subdirs files =>
    if md ≠ -1 ∧ (pyLevel sp path : Int) > md then ([], [])
    else
      let indent := strRepeat "│   " (pyLevel sp path)
      let sf := sortFiles files
      let fLines := sf.flatMap (fileStructLines indent)
      let cLines := sf.flatMap (fileContentLines rel)
      let sub := walkKeptDirs sp md path rel subdirs
      (dirEntry sp path :: (fLines ++ sub.1), cLines ++ sub.2)

/-- Descent into the children of a visited directory.  The code filters
`dirs[:] = [d for d in dirs if d not in IGNORED_DIRS and not
d.startswith('.')]` and `os.walk` then descends into exactly the kept
children, in order; a pruned child contributes nothing, which is what the
per-child guard expresses (`walkKeptDirs_eq_filter` below proves the two
formulations equal). -/
def walkKeptDirs (sp : String) (md : Int) (path : String) (rel : List String) :
    DirList → List String × List String
  | .nil => ([], [])
  | .cons d ds =>
    let rest := walkKeptDirs sp md path rel ds
    if keepDir d then
      let r := walkDir sp md (pyJoin path d.name) (rel ++ [d.name]) d
      (r.1 ++ rest.1, r.2 ++ rest.2)
    else rest
end

/-- `get_project_structure(start_path, max_depth)` (code lines 7-119): the
full returned text, for filesystem state `fs` rooted at `start_path`.
`output` starts as `["Directory Structure:"]`, `file_contents` as
`["\nFile Contents:\n"]`, and the result is
`"\n".join(output + file_contents)`. -/
def get_project_structure (fs : DirTree) (start_path : String) (max_depth : Int) : String :=
  let w := walkDir start_path max_depth start_path [] fs
  String.intercalate "\n" (("Directory Structure:" :: w.1) ++ ("\nFile Contents:\n" :: w.2))

/-! ### Helper lemmas about the per-file functions -/

theorem included_split (f : FileNode) (h : isIncludedFile f = true) :
    isIgnoredFile f.name = false ∧ matchesInclusion f.name = true := by
  unfold isIncludedFile at h
  simp only [Bool.and_eq_true, Bool.not_eq_true'] at h
  exact h

theorem fileStructLines_ign (indent : String) (f : FileNode)
    (h1 : isIgnoredFile f.name = true) : fileStructLines indent f = [] := by
  unfold fileStructLines
  simp [h1]

theorem fileStructLines_inc (indent : String) (f : FileNode)
    (h1 : isIgnoredFile f.name = false) (h2 : matchesInclusion f.name = true) :
    fileStructLines indent f = [indent ++ "├── " ++ f.name] := by
  unfold fileStructLines
  simp [h1, h2]

theorem fileContentLines_ign (rel : List String) (f : FileNode)
    (h1 : isIgnoredFile f.name = true) : fileContentLines rel f = [] := by
  unfold fileContentLines
  simp [h1]

theorem fileContentLines_big (rel : List String) (f : FileNode)
    (h1 : isIgnoredFile f.name = false) (h2 : matchesInclusion f.name = true)
    (h3 : f.size > 100 * 1024) :
    fileContentLines rel f =
      ["\nFile: " ++ f.name ++ " (skipped - too large, " ++ format1f f.size ++ "KB)", ""] := by
  unfold fileContentLines
  simp [h1, h2, h3]

theorem fileContentLines_ok (rel : List String) (f : FileNode) (c : String)
    (h1 : isIgnoredFile f.name = false) (h2 : matchesInclusion f.name = true)
    (h3 : ¬ f.size > 100 * 1024) (h4 : f.readResult = .ok c) :
    fileContentLines rel f =
      ["\nFile: " ++ String.intercalate "/" (rel ++ [f.name]), dashes40, c, dashes40, ""] := by
  unfold fileContentLines
  rw [h4]
  simp [h1, h2, h3]

theorem fileContentLines_err (rel : List String) (f : FileNode) (e : String)
    (h1 : isIgnoredFile f.name = false) (h2 : matchesInclusion f.name = true)
    (h3 : ¬ f.size > 100 * 1024) (h4 : f.readResult = .error e) :
    fileContentLines rel f = ["Error reading " ++ f.name ++ ": " ++ e, ""] := by
  unfold fileContentLines
  rw [h4]
  simp [h1, h2, h3]

/-! ### Claim C1 -/

/-- C1 (counterexample): the claim's extension rule ("suffix starting at
the last `.`") predicts that `.bashrc` is not included — its spec
extension `.bashrc` is not in Included Extensions and the name is not an
Important Filename — yet `.bashrc` survives the substring exclusion and
the builder does include it (a structure entry and a content block),
because `Path('.bashrc').suffix` is `''`, which is in Included
Extensions. -/
theorem C1_counterexample :
    isIgnoredFile ".bashrc" = false ∧
    (INCLUDED_EXTENSIONS.contains (spec_extension ".bashrc") ||
      IMPORTANT_FILES.contains ".bashrc") = false ∧
    pySuffix ".bashrc" = "" ∧
    walkDir "r" (-1) "r" [] (.node "r" .nil [⟨".bashrc", 1, .ok "x"⟩]) =
      (["r/", "├── .bashrc"],
       ["\nFile: .bashrc", dashes40, "x", dashes40, ""]) := by decide

/-- C1 (amended): for every file that survives the substring exclusion,
the builder includes it — emitting a structure entry and a content block —
if and only if its extension as computed by `pathlib.Path(...).suffix`
(the suffix from the last `.` when that dot is neither the first nor the
last character of the name, otherwise the empty string) is in Included
Extensions, or its exact filename is in Important Filenames. -/
theorem C1_extension_inclusion (indent : String) (rel : List String) (f : FileNode)
    (hs : isIgnoredFile f.name = false) :
    (fileStructLines indent f ≠ [] ∧ fileContentLines rel f ≠ []) ↔
      (INCLUDED_EXTENSIONS.contains (pySuffix f.name) ||
        IMPORTANT_FILES.contains f.name) = true := by
  show _ ↔ matchesInclusion f.name = true
  cases hm : matchesInclusion f.name
  · simp [fileStructLines, fileContentLines, hs, hm]
  · constructor
    · intro _
      rfl
    · intro _
      refine ⟨by simp [fileStructLines_inc indent f hs hm], ?_⟩
      by_cases hsz : f.size > 100 * 1024
      · simp [fileContentLines_big rel f hs hm hsz]
      · cases hr : f.readResult with
        | ok c => simp [fileContentLines_ok rel f c hs hm hsz hr]
        | error e => simp [fileContentLines_err rel f e hs hm hsz hr]

/-- C1 (witness for the amended theorem at a concrete input). -/
theorem C1_extension_inclusion_witness :
    isIgnoredFile "a.py" = false ∧
    ((fileStructLines "" ⟨"a.py", 1, .ok "pass"⟩ ≠ [] ∧
      fileContentLines [] ⟨"a.py", 1, .ok "pass"⟩ ≠ []) ↔
      (INCLUDED_EXTENSIONS.contains (pySuffix "a.py") ||
        IMPORTANT_FILES.contains "a.py") = true) :=
  ⟨by decide, C1_extension_inclusion "" [] ⟨"a.py", 1, .ok "pass"⟩ (by decide)⟩

/-! ### Claim C4 -/

/-- C4: an included file larger than 102400 bytes yields a skip notice
with its size in KiB to one decimal place and its body is never read (the
notice does not depend on the read result); a file of exactly 102400
bytes is read normally; a file of 102401 bytes is skipped with the notice
reporting `100.0KB`. -/
theorem C4_size_threshold :
    (∀ (rel : List String) (f : FileNode), isIncludedFile f = true → f.size > 102400 →
      fileContentLines rel f =
        ["\nFile: " ++ f.name ++ " (skipped - too large, " ++ format1f f.size ++ "KB)", ""]) ∧
    (∀ (rel : List String) (f : FileNode) (c : String), isIncludedFile f = true →
      f.size = 102400 → f.readResult = .ok c →
      fileContentLines rel f =
        ["\nFile: " ++ String.intercalate "/" (rel ++ [f.name]), dashes40, c, dashes40, ""]) ∧
    (∀ (rel : List String) (f : FileNode), isIncludedFile f = true → f.size = 102401 →
      fileContentLines rel f =
        ["\nFile: " ++ f.name ++ " (skipped - too large, 100.0KB)", ""]) := by
  refine ⟨?_, ?_, ?_⟩
  · intro rel f hin hbig
    obtain ⟨h1, h2⟩ := included_split f hin
    exact fileContentLines_big rel f h1 h2 (by omega)
  · intro rel f c hin hsz hr
    obtain ⟨h1, h2⟩ := included_split f hin
    exact fileContentLines_ok rel f c h1 h2 (by omega) hr
  · intro rel f hin hsz
    obtain ⟨h1, h2⟩ := included_split f hin
    rw [fileContentLines_big rel f h1 h2 (by omega), hsz]
    rw [show format1f 102401 = "100.0" from by decide]
    simp only [String.append_assoc]
    rw [show " (skipped - too large, " ++ ("100.0" ++ "KB)") =
      " (skipped - too large, 100.0KB)" from by decide]

/-- C4 (witness). -/
theorem C4_size_threshold_witness :
    (isIncludedFile ⟨"big.py", 102401, .ok "x"⟩ = true ∧
      fileContentLines [] ⟨"big.py", 102401, .ok "x"⟩ =
        ["\nFile: big.py (skipped - too large, 100.0KB)", ""]) ∧
    (isIncludedFile ⟨"ok.py", 102400, .ok "x"⟩ = true ∧
      fileContentLines [] ⟨"ok.py", 102400, .ok "x"⟩ =
        ["\nFile: ok.py", dashes40, "x", dashes40, ""]) := by
  refine ⟨⟨by decide, ?_⟩, ⟨by decide, ?_⟩⟩
  · have h := C4_size_threshold.2.2 [] ⟨"big.py", 102401, .ok "x"⟩ (by decide) rfl
    simpa using h
  · have h := C4_size_threshold.2.1 [] ⟨"ok.py", 102400, .ok "x"⟩ "x" (by decide) rfl rfl
    simpa using h

/-! ### Claim C5 -/

/-- C5: when reading an included file fails, the builder emits — in place
of the content — a block stating an error occurred and containing the
underlying message; the failure is local: the blocks produced for the
files before and after it are exactly the blocks they produce on their
own, so traversal continues unchanged (the embedding is a total function,
so no exception reaches the caller). -/
theorem C5_read_error_nonfatal (rel : List String) (f : FileNode) (e : String)
    (hin : isIncludedFile f = true) (hsz : ¬ f.size > 102400)
    (herr : f.readResult = .error e) (l1 l2 : List FileNode) :
    fileContentLines rel f = ["Error reading " ++ f.name ++ ": " ++ e, ""] ∧
    (l1 ++ f :: l2).flatMap (fileContentLines rel) =
      l1.flatMap (fileContentLines rel) ++
        (["Error reading " ++ f.name ++ ": " ++ e, ""] ++
          l2.flatMap (fileContentLines rel)) := by
  obtain ⟨h1, h2⟩ := included_split f hin
  have hb := fileContentLines_err rel f e h1 h2 (by omega) herr
  refine ⟨hb, ?_⟩
  rw [List.flatMap_append, List.flatMap_cons, hb]

/-- C5 (witness). -/
theorem C5_read_error_nonfatal_witness :
    fileContentLines [] ⟨"a.py", 1, .error "Permission denied"⟩ =
      ["Error reading a.py: Permission denied", ""] ∧
    ([(⟨"b.py", 1, .ok "y"⟩ : FileNode)] ++ (⟨"a.py", 1, .error "Permission denied"⟩ : FileNode) ::
        [(⟨"c.py", 1, .ok "z"⟩ : FileNode)]).flatMap (fileContentLines []) =
      [(⟨"b.py", 1, .ok "y"⟩ : FileNode)].flatMap (fileContentLines []) ++
        (["Error reading a.py: Permission denied", ""] ++
          [(⟨"c.py", 1, .ok "z"⟩ : FileNode)].flatMap (fileContentLines [])) :=
  C5_read_error_nonfatal [] ⟨"a.py", 1, .error "Permission denied"⟩ "Permission denied"
    (by decide) (by decide) rfl [⟨"b.py", 1, .ok "y"⟩] [⟨"c.py", 1, .ok "z"⟩]

/-! ### Claim C6 -/

/-- C6: a file whose name contains any Ignored File Substrings entry
anywhere is skipped — no structure entry, no content block — regardless of
extension or Important-Filename membership; in particular `foo.test.js`
passes the extension test (`.js`) but is never included because its name
contains `.test.`. -/
theorem C6_substring_exclusion :
    (∀ (indent : String) (rel : List String) (f : FileNode), isIgnoredFile f.name = true →
      fileStructLines indent f = [] ∧ fileContentLines rel f = []) ∧
    pyContains "foo.test.js" ".test." = true ∧
    isIgnoredFile "foo.test.js" = true ∧
    (INCLUDED_EXTENSIONS.contains (pySuffix "foo.test.js") ||
      IMPORTANT_FILES.contains "foo.test.js") = true ∧
    fileStructLines "" ⟨"foo.test.js", 1, .ok "x"⟩ = [] ∧
    fileContentLines [] ⟨"foo.test.js", 1, .ok "x"⟩ = [] := by
  refine ⟨?_, by decide, by decide, by decide, by decide, by decide⟩
  intro indent rel f h
  exact ⟨fileStructLines_ign indent f h, fileContentLines_ign rel f h⟩

/-- C6 (witness). -/
theorem C6_substring_exclusion_witness :
    isIgnoredFile "app.spec.ts" = true ∧
    fileStructLines "" ⟨"app.spec.ts", 1, .ok "x"⟩ = [] ∧
    fileContentLines [] ⟨"app.spec.ts", 1, .ok "x"⟩ = [] := by
  have h := C6_substring_exclusion.1 "" [] ⟨"app.spec.ts", 1, .ok "x"⟩ (by decide)
  exact ⟨by decide, h.1, h.2⟩

/-! ### Claim C9 -/

/-- C9: the builder is deterministic — it is a pure function of the root
path, the depth bound and the filesystem state, so two invocations with
identical inputs return byte-identical output. -/
theorem C9_deterministic (fs fs' : DirTree) (sp sp' : String) (md md' : Int)
    (h1 : fs = fs') (h2 : sp = sp') (h3 : md = md') :
    get_project_structure fs sp md = get_project_structure fs' sp' md' := by
  subst h1
  subst h2
  subst h3
  rfl

/-- C9 (witness). -/
theorem C9_deterministic_witness :
    get_project_structure (.node "r" .nil [⟨"a.py", 1, .ok "x"⟩]) "r" (-1) =
      get_project_structure (.node "r" .nil [⟨"a.py", 1, .ok "x"⟩]) "r" (-1) :=
  C9_deterministic _ _ _ _ _ _ rfl rfl rfl

/-! ### Claim C10 -/

/-- C10: the skip notice for an oversized file names the file by bare
filename only and does not depend on the directory's relative path, while
a normally read file's header uses the root-relative path; hence two
oversized files with the same name and size in different directories
produce indistinguishable notice blocks. -/
theorem C10_oversize_notice_bare_name (rel rel' : List String) (f : FileNode)
    (hin : isIncludedFile f = true) (hbig : f.size > 102400) :
    fileContentLines rel f =
      ["\nFile: " ++ f.name ++ " (skipped - too large, " ++ format1f f.size ++ "KB)", ""] ∧
    fileContentLines rel f = fileContentLines rel' f ∧
    (∀ (g : FileNode) (c : String), isIncludedFile g = true → ¬ g.size > 102400 →
      g.readResult = .ok c →
      (fileContentLines rel g).head? =
        some ("\nFile: " ++ String.intercalate "/" (rel ++ [g.name]))) := by
  obtain ⟨h1, h2⟩ := included_split f hin
  have hb := fileContentLines_big rel f h1 h2 (by omega)
  have hb' := fileContentLines_big rel' f h1 h2 (by omega)
  refine ⟨hb, hb.trans hb'.symm, ?_⟩
  intro g c hing hszg hrg
  obtain ⟨hg1, hg2⟩ := included_split g hing
  rw [fileContentLines_ok rel g c hg1 hg2 (by omega) hrg]
  rfl

/-- C10 (witness): the same oversized name in two different directories
yields the same notice block. -/
theorem C10_oversize_notice_bare_name_witness :
    fileContentLines ["src"] ⟨"big.py", 102500, .ok "x"⟩ =
      ["\nFile: big.py (skipped - too large, " ++ format1f 102500 ++ "KB)", ""] ∧
    fileContentLines ["src"] ⟨"big.py", 102500, .ok "x"⟩ =
      fileContentLines ["lib"] ⟨"big.py", 102500, .ok "x"⟩ := by
  have h := C10_oversize_notice_bare_name ["src"] ["lib"] ⟨"big.py", 102500, .ok "x"⟩
    (by decide) (by decide)
  exact ⟨by simpa using h.1, h.2.1⟩

/-! ### Claim C8 -/

/-- C8: the returned text is the Structure Lines prefixed by the literal
header `"Directory Structure:"`, followed by the Content Blocks prefixed
by the literal header `"\nFile Contents:\n"`, all joined with newlines;
and a successfully read file's block is the header line with the
root-relative path, a 40-character line of `-`, the literal content,
another 40-character `-` line, and a blank line. -/
theorem C8_output_assembly (fs : DirTree) (sp : String) (md : Int) :
    get_project_structure fs sp md =
      String.intercalate "\n"
        (["Directory Structure:"] ++ (walkDir sp md sp [] fs).1 ++
          (["\nFile Contents:\n"] ++ (walkDir sp md sp [] fs).2)) ∧
    (∀ (rel : List String) (f : FileNode) (c : String), isIncludedFile f = true →
      ¬ f.size > 102400 → f.readResult = .ok c →
      fileContentLines rel f =
        ["\nFile: " ++ String.intercalate "/" (rel ++ [f.name]),
         dashes40, c, dashes40, ""]) ∧
    dashes40.length = 40 ∧ dashes40.data.all (· == '-') = true := by
  refine ⟨by simp [get_project_structure], ?_, by decide, by decide⟩
  intro rel f c hin hsz hr
  obtain ⟨h1, h2⟩ := included_split f hin
  exact fileContentLines_ok rel f c h1 h2 (by omega) hr

/-- C8 (witness). -/
theorem C8_output_assembly_witness :
    get_project_structure (.node "r" .nil [⟨"a.py", 1, .ok "x"⟩]) "r" (-1) =
      String.intercalate "\n"
        (["Directory Structure:"] ++
          (walkDir "r" (-1) "r" [] (.node "r" .nil [⟨"a.py", 1, .ok "x"⟩])).1 ++
          (["\nFile Contents:\n"] ++
            (walkDir "r" (-1) "r" [] (.node "r" .nil [⟨"a.py", 1, .ok "x"⟩])).2)) ∧
    fileContentLines ["src"] ⟨"a.py", 1, .ok "x"⟩ =
      ["\nFile: src/a.py", dashes40, "x", dashes40, ""] := by
  have h := C8_output_assembly (.node "r" .nil [⟨"a.py", 1, .ok "x"⟩]) "r" (-1)
  refine ⟨h.1, ?_⟩
  have h2 := h.2.1 ["src"] ⟨"a.py", 1, .ok "x"⟩ "x" (by decide) (by decide) rfl
  simpa using h2

/-! ### Claim C7 -/

/-- Helper: dropping a pruned child (one the filter on line 65 removes)
anywhere in the child list leaves the walk's output unchanged. -/
theorem walkKept_drop_bad (sp path : String) (md : Int) (rel : List String) (d : DirTree)
    (hbad : keepDir d = false) :
    ∀ l1 l2 : DirList, walkKeptDirs sp md path rel (l1.append (.cons d l2)) =
      walkKeptDirs sp md path rel (l1.append l2)
  | .nil, l2 => by simp [DirList.append, walkKeptDirs, hbad]
  | .cons d' ds, l2 => by
    simp only [DirList.append, walkKeptDirs]
    rw [walkKept_drop_bad sp path md rel d hbad ds l2]

/-- C7: a child directory whose name is in Ignored Directory Names or
begins with `.` is pruned before descent — the walk over a child list
containing it equals the walk with it removed, so neither it nor anything
beneath it contributes structure entries or content blocks; and pruning
affects only descent: a visited (non-cutoff) directory always emits its
own structure entry first, whatever its name. -/
theorem C7_dir_pruning (sp path : String) (md : Int) (rel : List String) (d : DirTree)
    (hbad : keepDir d = false) :
    (∀ l1 l2 : DirList, walkKeptDirs sp md path rel (l1.append (.cons d l2)) =
        walkKeptDirs sp md path rel (l1.append l2)) ∧
    (∀ (nm : String) (subdirs : DirList) (files : List FileNode),
      ¬ (md ≠ -1 ∧ (pyLevel sp path : Int) > md) →
      (walkDir sp md path rel (.node nm subdirs files)).1.head? =
        some (dirEntry sp path)) := by
  constructor
  · exact walkKept_drop_bad sp path md rel d hbad
  · intro nm subdirs files hcut
    simp [walkDir, if_neg hcut]

/-- C7 (witness): `node_modules` is pruned; the visited directory still
emits its own entry. -/
theorem C7_dir_pruning_witness :
    keepDir (.node "node_modules" .nil []) = false ∧
    walkKeptDirs "r" (-1) "r" []
        (DirList.nil.append (.cons (.node "node_modules" .nil []) .nil)) =
      walkKeptDirs "r" (-1) "r" [] (DirList.nil.append .nil) ∧
    (walkDir "r" (-1) "r" [] (.node "r" .nil [])).1.head? =
      some (dirEntry "r" "r") := by
  have h := C7_dir_pruning "r" "r" (-1) [] (.node "node_modules" .nil []) (by decide)
  exact ⟨by decide, h.1 .nil .nil, h.2 "r" .nil [] (by decide)⟩

/-! ### Claim C2: header counting -/

/-- Is this output element a content-block header (`"\nFile: ..."`)?
Both a successful read and an oversize skip notice produce exactly one
such element; an error block produces none. -/
def isHeaderLine (l : String) : Bool := strStartsWith l "\nFile: "

/-- Number of `"File:"` headers among content-block elements. -/
def countFileHeaders (lines : List String) : Nat := (lines.filter isHeaderLine).length

/-- An included file whose body the code attempts to read (size within the
limit) and whose read fails: exactly the files that produce an error block
instead of a headed block. -/
def readFailed (f : FileNode) : Bool :=
  isIncludedFile f && !decide (f.size > 100 * 1024) &&
    (match f.readResult with | .ok _ => false | .error _ => true)

/-- A file is clean when its text does not itself begin with the header
marker `"\nFile: "`; needed so that counting headers among emitted
elements counts exactly the blocks. -/
def fileClean (f : FileNode) : Bool :=
  match f.readResult with
  | .ok c => !strStartsWith c "\nFile: "
  | .error _ => true

mutual
/-- All files in the tree are clean. -/
def treeClean : DirTree → Bool
  | .node _nm subdirs files => files.all fileClean && dirListClean subdirs

/-- All files in a list of trees are clean. -/
def dirListClean : DirList → Bool
  | .nil => true
  | .cons d ds => treeClean d && dirListClean ds
end

mutual
/-- Statistics of the walk, mirrored over the same traversal as
`walkDir`: (number of visited directory entries, number of
content-eligible file entries, number of failed reads among them). -/
def statsDir (sp : String) (md : Int) (path : String) : DirTree → Nat × Nat × Nat
  | .node _nm subdirs files =>
    if md ≠ -1 ∧ (pyLevel sp path : Int) > md then (0, 0, 0)
    else
      let s := statsKept sp md path subdirs
      (1 + s.1, (files.filter isIncludedFile).length + s.2.1,
        (files.filter readFailed).length + s.2.2)

/-- Statistics of the descent into kept children (mirrors
`walkKeptDirs`). -/
def statsKept (sp : String) (md : Int) (path : String) : DirList → Nat × Nat × Nat
  | .nil => (0, 0, 0)
  | .cons d ds =>
    let rest := statsKept sp md path ds
    if keepDir d then
      let r := statsDir sp md (pyJoin path d.name) d
      (r.1 + rest.1, r.2.1 + rest.2.1, r.2.2 + rest.2.2)
    else rest
end

theorem isPre_self_append (p r : List Char) : isPre p (p ++ r) = true := by
  induction p with
  | nil => rfl
  | cons a p ih => simp [isPre, ih]

theorem strStartsWith_append (p s : String) : strStartsWith (p ++ s) p = true := by
  unfold strStartsWith
  rw [String.data_append]
  exact isPre_self_append p.data s.data

theorem isHeaderLine_pos (s : String) : isHeaderLine ("\nFile: " ++ s) = true :=
  strStartsWith_append "\nFile: " s

theorem isHeaderLine_err (s : String) : isHeaderLine ("Error reading " ++ s) = false := by
  unfold isHeaderLine strStartsWith
  rw [String.data_append]
  rfl

theorem countFileHeaders_append (a b : List String) :
    countFileHeaders (a ++ b) = countFileHeaders a + countFileHeaders b := by
  simp [countFileHeaders, List.filter_append]

/-- One file's structure-line count is its eligibility indicator. -/
theorem structLines_per_file (indent : String) (f : FileNode) :
    (fileStructLines indent f).length = if isIncludedFile f then 1 else 0 := by
  cases hi : isIgnoredFile f.name
  · cases hm : matchesInclusion f.name <;>
      simp [fileStructLines, isIncludedFile, hi, hm]
  · simp [fileStructLines, isIncludedFile, hi]

/-- One file's content lines hold one header when the file is eligible and
its read does not fail, none otherwise. -/
theorem headers_per_file (rel : List String) (f : FileNode) (hc : fileClean f = true) :
    countFileHeaders (fileContentLines rel f) + (if readFailed f then 1 else 0) =
      if isIncludedFile f then 1 else 0 := by
  cases hi : isIgnoredFile f.name
  · cases hm : matchesInclusion f.name
    · have h0 : isIncludedFile f = false := by simp [isIncludedFile, hi, hm]
      simp [fileContentLines, hi, hm, countFileHeaders, readFailed, h0]
    · have hin : isIncludedFile f = true := by simp [isIncludedFile, hi, hm]
      by_cases hsz : f.size > 100 * 1024
      · have hrf : readFailed f = false := by simp [readFailed, hsz]
        rw [fileContentLines_big rel f hi hm hsz, hrf, hin]
        simp only [String.append_assoc]
        simp [countFileHeaders, List.filter, isHeaderLine_pos,
          show isHeaderLine "" = false from by decide]
      · cases hr : f.readResult with
        | ok c =>
          have hcc : isHeaderLine c = false := by
            unfold fileClean at hc
            rw [hr] at hc
            simpa [isHeaderLine] using hc
          have hrf : readFailed f = false := by simp [readFailed, hr]
          rw [fileContentLines_ok rel f c hi hm hsz hr, hrf, hin]
          simp [countFileHeaders, List.filter, isHeaderLine_pos, hcc,
            show isHeaderLine dashes40 = false from by decide,
            show isHeaderLine "" = false from by decide]
        | error e =>
          have hrf : readFailed f = true := by
            simp [readFailed, hin, hsz, hr]
          rw [fileContentLines_err rel f e hi hm hsz hr, hrf, hin]
          simp only [String.append_assoc]
          simp [countFileHeaders, List.filter, isHeaderLine_err,
            show isHeaderLine "" = false from by decide]
  · have h0 : isIncludedFile f = false := by simp [isIncludedFile, hi]
    simp [fileContentLines, hi, countFileHeaders, readFailed, h0]

theorem filter_len_cons (p : FileNode → Bool) (f : FileNode) (fs : List FileNode) :
    ((f :: fs).filter p).length = (if p f then 1 else 0) + (fs.filter p).length := by
  rw [List.filter_cons]
  split <;> simp [Nat.add_comm]

/-- Sum of the per-file header counts over a list of files. -/
theorem headers_flatMap (rel : List String) (fs : List FileNode)
    (hc : fs.all fileClean = true) :
    countFileHeaders (fs.flatMap (fileContentLines rel)) + (fs.filter readFailed).length =
      (fs.filter isIncludedFile).length := by
  induction fs with
  | nil => simp [countFileHeaders]
  | cons f fs ih =>
    simp only [List.all_cons, Bool.and_eq_true] at hc
    have hf := headers_per_file rel f hc.1
    have ihh := ih hc.2
    rw [List.flatMap_cons, countFileHeaders_append, filter_len_cons, filter_len_cons]
    omega

/-- Sum of the per-file structure-line counts over a list of files. -/
theorem structLen_flatMap (indent : String) (fs : List FileNode) :
    (fs.flatMap (fileStructLines indent)).length = (fs.filter isIncludedFile).length := by
  induction fs with
  | nil => rfl
  | cons f fs ih =>
    have hf := structLines_per_file indent f
    rw [List.flatMap_cons, List.length_append, filter_len_cons, ih]
    omega

theorem insertSorted_perm (f : FileNode) (l : List FileNode) :
    (insertSorted f l).Perm (f :: l) := by
  induction l with
  | nil => exact List.Perm.refl _
  | cons g gs ih =>
    unfold insertSorted
    split
    · exact List.Perm.refl _
    · exact (List.Perm.cons g ih).trans (List.Perm.swap f g gs)

theorem sortFiles_perm (l : List FileNode) : (sortFiles l).Perm l := by
  induction l with
  | nil => exact List.Perm.refl _
  | cons f fs ih => exact (insertSorted_perm f (sortFiles fs)).trans (List.Perm.cons f ih)

theorem sortFiles_filter_len (p : FileNode → Bool) (l : List FileNode) :
    ((sortFiles l).filter p).length = (l.filter p).length := by
  rw [← List.countP_eq_length_filter, ← List.countP_eq_length_filter]
  exact (sortFiles_perm l).countP_eq p

theorem sortFiles_all (p : FileNode → Bool) (l : List FileNode) (h : l.all p = true) :
    (sortFiles l).all p = true := by
  rw [List.all_eq_true] at h ⊢
  intro x hx
  exact h x ((sortFiles_perm l).mem_iff.mp hx)

mutual
/-- Header/failure/entry accounting over a whole subtree: headers emitted
plus failed reads equal the content-eligible entries, and the structure
list holds one line per visited directory plus one per eligible file. -/
theorem statsDir_spec (sp : String) (md : Int) (path : String) (rel : List String)
    (t : DirTree) (hc : treeClean t = true) :
    countFileHeaders (walkDir sp md path rel t).2 + (statsDir sp md path t).2.2 =
      (statsDir sp md path t).2.1 ∧
    (walkDir sp md path rel t).1.length =
      (statsDir sp md path t).1 + (statsDir sp md path t).2.1 := by
  obtain ⟨nm, subdirs, files⟩ := t
  simp only [treeClean, Bool.and_eq_true] at hc
  by_cases hcut : md ≠ -1 ∧ (pyLevel sp path : Int) > md
  · simp [walkDir, statsDir, if_pos hcut, countFileHeaders]
  · have hsub := statsKept_spec sp md path rel subdirs hc.2
    have hfile := headers_flatMap rel (sortFiles files) (sortFiles_all fileClean files hc.1)
    have hstr := structLen_flatMap (strRepeat "│   " (pyLevel sp path)) (sortFiles files)
    rw [sortFiles_filter_len, sortFiles_filter_len] at hfile
    rw [sortFiles_filter_len] at hstr
    simp only [walkDir, statsDir, if_neg hcut]
    constructor
    · rw [countFileHeaders_append]
      omega
    · simp only [List.length_cons, List.length_append]
      omega

/-- The same accounting over the descent into kept children. -/
theorem statsKept_spec (sp : String) (md : Int) (path : String) (rel : List String)
    (l : DirList) (hc : dirListClean l = true) :
    countFileHeaders (walkKeptDirs sp md path rel l).2 + (statsKept sp md path l).2.2 =
      (statsKept sp md path l).2.1 ∧
    (walkKeptDirs sp md path rel l).1.length =
      (statsKept sp md path l).1 + (statsKept sp md path l).2.1 := by
  cases l with
  | nil => simp [walkKeptDirs, statsKept, countFileHeaders]
  | cons d ds =>
    simp only [dirListClean, Bool.and_eq_true] at hc
    have hd := statsDir_spec sp md (pyJoin path d.name) (rel ++ [d.name]) d hc.1
    have hds := statsKept_spec sp md path rel ds hc.2
    simp only [walkKeptDirs, statsKept]
    by_cases hk : keepDir d = true
    · simp only [hk, if_true]
      constructor
      · rw [countFileHeaders_append]
        omega
      · simp only [List.length_append]
        omega
    · simp only [Bool.not_eq_true] at hk
      simp only [hk, Bool.false_eq_true, if_false]
      exact hds
end

/-- C2 (counterexample): one content-eligible file whose read fails gets a
structure entry but an `Error reading` block with no `"File:"` header, so
the header count (0) differs from the count of content-eligible structure
entries (1), contradicting the claim's "including the case where reading
some eligible file fails". -/
theorem C2_counterexample :
    treeClean (.node "r" .nil [⟨"a.py", 1, .error "boom"⟩]) = true ∧
    walkDir "r" (-1) "r" [] (.node "r" .nil [⟨"a.py", 1, .error "boom"⟩]) =
      (["r/", "├── a.py"], ["Error reading a.py: boom", ""]) ∧
    countFileHeaders
      (walkDir "r" (-1) "r" [] (.node "r" .nil [⟨"a.py", 1, .error "boom"⟩])).2 = 0 ∧
    (statsDir "r" (-1) "r" (.node "r" .nil [⟨"a.py", 1, .error "boom"⟩])).2.1 = 1 := by
  decide

/-- C2 (amended): for every input whose file texts do not themselves start
with the header marker, the number of `"File:"` headers in the Content
Blocks plus the number of eligible files whose read failed equals the
number of content-eligible file entries in the Structure Lines (a failed
read emits an `Error reading` block without a header); moreover the
Structure Lines consist of exactly one line per visited directory plus one
line per content-eligible file.  Equality with the eligible-entry count
therefore holds exactly when no read fails. -/
theorem C2_header_count (sp : String) (md : Int) (fs : DirTree) (rel : List String)
    (hc : treeClean fs = true) :
    countFileHeaders (walkDir sp md sp rel fs).2 + (statsDir sp md sp fs).2.2 =
      (statsDir sp md sp fs).2.1 ∧
    (walkDir sp md sp rel fs).1.length =
      (statsDir sp md sp fs).1 + (statsDir sp md sp fs).2.1 :=
  statsDir_spec sp md sp rel fs hc

/-- C2 (witness). -/
theorem C2_header_count_witness :
    treeClean (.node "r" .nil [⟨"a.py", 1, .ok "x"⟩]) = true ∧
    (countFileHeaders
        (walkDir "r" (-1) "r" [] (.node "r" .nil [⟨"a.py", 1, .ok "x"⟩])).2 +
        (statsDir "r" (-1) "r" (.node "r" .nil [⟨"a.py", 1, .ok "x"⟩])).2.2 =
      (statsDir "r" (-1) "r" (.node "r" .nil [⟨"a.py", 1, .ok "x"⟩])).2.1) ∧
    (walkDir "r" (-1) "r" [] (.node "r" .nil [⟨"a.py", 1, .ok "x"⟩])).1.length =
      (statsDir "r" (-1) "r" (.node "r" .nil [⟨"a.py", 1, .ok "x"⟩])).1 +
        (statsDir "r" (-1) "r" (.node "r" .nil [⟨"a.py", 1, .ok "x"⟩])).2.1 := by
  have h := C2_header_count "r" (-1) (.node "r" .nil [⟨"a.py", 1, .ok "x"⟩]) [] (by decide)
  exact ⟨by decide, h.1, h.2⟩

/-! ### Claim C3: the level computation -/

/-- The `root` string `os.walk` yields for the directory reached from
`start_path` via the components `comps`: iterated `os.path.join`. -/
def joinPath (p : String) (comps : List String) : String := comps.foldl pyJoin p

/-- The string `"/c1/c2/.../ck"` for components `c1 ... ck`. -/
def relSuffixStr : List String → String
  | [] => ""
  | c :: cs => "/" ++ c ++ relSuffixStr cs

/-- A well-formed path component: nonempty and without `'/'` (every name
`os.walk` reports satisfies this). -/
def cleanName (c : String) : Bool := !(c == "") && (c.data.count '/' == 0)

theorem replaceAux_head (c : Char) (p' r : List Char) (fuel : Nat) :
    replaceAux (c :: p') (fuel + 1) ((c :: p') ++ r) = replaceAux (c :: p') fuel r := by
  have h1 : isPre (c :: p') ((c :: p') ++ r) = true := isPre_self_append _ _
  rw [List.cons_append] at h1
  rw [List.cons_append]
  simp only [replaceAux, List.isEmpty_cons, Bool.not_false, Bool.true_and, h1, if_true]
  rw [List.length_cons, Nat.add_sub_cancel, List.drop_left]

theorem replaceAux_no_occ (p : List Char) (s : List Char) (h : containsAux p s = false) :
    ∀ fuel, replaceAux p fuel s = s := by
  induction s with
  | nil =>
    intro fuel
    cases fuel <;> rfl
  | cons c t ih =>
    intro fuel
    simp only [containsAux, Bool.or_eq_false_iff] at h
    cases fuel with
    | zero => rfl
    | succ n =>
      simp only [replaceAux, h.1, Bool.and_false, Bool.false_eq_true, if_false]
      rw [ih h.2 n]

theorem string_ne_data (sp : String) (hsp : sp ≠ "") : sp.data ≠ [] := by
  intro hnil
  exact hsp (String.ext hnil)

/-- When `sp` does not occur in `r`, `(sp ++ r).replace(sp, '') = r`. -/
theorem pyReplace_strip (sp r : String) (hsp : sp ≠ "") (h : pyContains r sp = false) :
    pyReplace (sp ++ r) sp = r := by
  unfold pyContains at h
  unfold pyReplace
  rw [String.data_append]
  obtain ⟨c, p', hcp⟩ := List.exists_cons_of_ne_nil (string_ne_data sp hsp)
  rw [hcp] at h ⊢
  rw [List.length_append, List.length_cons,
    show p'.length + 1 + r.data.length = p'.length + r.data.length + 1 from by omega,
    replaceAux_head c p' r.data (p'.length + r.data.length),
    replaceAux_no_occ (c :: p') r.data h]

/-- The root's own computed level is 0 (for a nonempty root path). -/
theorem pyLevel_self (sp : String) (hsp : sp ≠ "") : pyLevel sp sp = 0 := by
  have hc : pyContains "" sp = false := by
    unfold pyContains
    obtain ⟨c, p', hcp⟩ := List.exists_cons_of_ne_nil (string_ne_data sp hsp)
    rw [hcp]
    rfl
  have h := pyReplace_strip sp "" hsp hc
  rw [String.append_empty] at h
  unfold pyLevel
  rw [h]
  rfl

theorem cleanName_facts (c : String) (h : cleanName c = true) :
    c.data ≠ [] ∧ c.data.count '/' = 0 := by
  unfold cleanName at h
  rw [Bool.and_eq_true, Bool.not_eq_true', beq_eq_false_iff_ne, beq_iff_eq] at h
  exact ⟨string_ne_data c h.1, h.2⟩

theorem clean_not_starts (c : String) (h : cleanName c = true) :
    strStarts c '/' = false := by
  obtain ⟨hne, hcount⟩ := cleanName_facts c h
  have hmem : '/' ∉ c.data := List.count_eq_zero.mp hcount
  obtain ⟨x, xs, hx⟩ := List.exists_cons_of_ne_nil hne
  have hxne : x ≠ '/' := by
    intro he
    exact hmem (hx ▸ (he ▸ List.mem_cons_self x xs))
  unfold strStarts
  rw [hx]
  simpa using hxne

/-- `os.path.join` below a clean root is string concatenation with `"/"`. -/
theorem pyJoin_clean (sp c : String) (hsp : sp ≠ "") (hse : strEnds sp '/' = false)
    (hc : cleanName c = true) : pyJoin sp c = sp ++ ("/" ++ c) := by
  have h1 : (sp == "") = false := by
    rw [beq_eq_false_iff_ne]
    exact hsp
  unfold pyJoin
  rw [clean_not_starts c hc, h1, hse]
  simp [String.append_assoc]

theorem append_clean_ne (sp c : String) (_hc : cleanName c = true) :
    sp ++ ("/" ++ c) ≠ "" := by
  intro h
  have := congrArg String.data h
  rw [String.data_append, String.data_append] at this
  simp at this

theorem append_clean_ends (sp c : String) (hc : cleanName c = true) :
    strEnds (sp ++ ("/" ++ c)) '/' = false := by
  obtain ⟨hne, hcount⟩ := cleanName_facts c hc
  have hmem : '/' ∉ c.data := List.count_eq_zero.mp hcount
  unfold strEnds
  rw [String.data_append, String.data_append,
    @List.getLast?_append_of_ne_nil Char sp.data ("/".data ++ c.data)
      (by intro hh; exact hne (List.append_eq_nil.mp hh).2),
    @List.getLast?_append_of_ne_nil Char "/".data c.data hne]
  have hx : c.data.getLast? = some (c.data.getLast hne) := List.getLast?_eq_getLast c.data hne
  rw [hx]
  have hxm : c.data.getLast hne ∈ c.data := List.getLast_mem hne
  have hxne : c.data.getLast hne ≠ '/' := fun he => hmem (he ▸ hxm)
  simpa using hxne

theorem sepCount_relSuffix (comps : List String) (h : ∀ c ∈ comps, cleanName c = true) :
    sepCount (relSuffixStr comps) = comps.length := by
  induction comps with
  | nil => rfl
  | cons c cs ih =>
    have hc := h c (List.mem_cons_self c cs)
    have hcs := ih (fun x hx => h x (List.mem_cons_of_mem c hx))
    simp only [relSuffixStr]
    unfold sepCount at hcs ⊢
    rw [String.data_append, String.data_append, List.count_append, List.count_append,
      (cleanName_facts c hc).2, hcs,
      show List.count '/' "/".data = 1 from by decide]
    simp only [List.length_cons]
    omega

/-- Below a clean root, the walk's `root` strings are the root plus the
`"/"`-joined components. -/
theorem joinPath_clean :
    ∀ (comps : List String) (sp : String), sp ≠ "" → strEnds sp '/' = false →
      (∀ c ∈ comps, cleanName c = true) →
      joinPath sp comps = sp ++ relSuffixStr comps
  | [], sp, _, _, _ => by
    simp [joinPath, relSuffixStr, String.append_empty]
  | c :: cs, sp, hsp, hse, hcl => by
    have hc := hcl c (List.mem_cons_self c cs)
    have step : joinPath sp (c :: cs) = joinPath (sp ++ ("/" ++ c)) cs := by
      simp only [joinPath, List.foldl_cons]
      rw [pyJoin_clean sp c hsp hse hc]
    rw [step, joinPath_clean cs (sp ++ ("/" ++ c)) (append_clean_ne sp c hc)
      (append_clean_ends sp c hc) (fun x hx => hcl x (List.mem_cons_of_mem c hx))]
    simp [relSuffixStr, String.append_assoc]

/-- The computed level of a direct child of a clean root is 1 (when the
root does not reoccur in the appended part). -/
theorem pyLevel_child (sp c : String) (hsp : sp ≠ "") (hse : strEnds sp '/' = false)
    (hc : cleanName c = true) (ho : pyContains ("/" ++ c) sp = false) :
    pyLevel sp (pyJoin sp c) = 1 := by
  rw [pyJoin_clean sp c hsp hse hc]
  unfold pyLevel
  rw [pyReplace_strip sp ("/" ++ c) hsp ho]
  unfold sepCount
  rw [String.data_append, List.count_append, (cleanName_facts c hc).2,
    show List.count '/' "/".data = 1 from by decide]

/-- A directory whose computed level exceeds a `maxDepth ≠ -1` contributes
nothing: no entry, no files, no descent. -/
theorem walkDir_cutoff (sp : String) (md : Int) (path : String) (rel : List String)
    (t : DirTree) (hmd : md ≠ -1) (hlev : (pyLevel sp path : Int) > md) :
    walkDir sp md path rel t = ([], []) := by
  obtain ⟨nm, subdirs, files⟩ := t
  simp only [walkDir]
  rw [if_pos ⟨hmd, hlev⟩]

/-- With `maxDepth = 0` and a clean root, every child of the root is cut
off, so the descent contributes nothing. -/
theorem walkKept_depth0 (sp : String) (hsp : sp ≠ "") (hse : strEnds sp '/' = false) :
    ∀ subdirs : DirList,
      subdirs.all (fun d => cleanName d.name && !pyContains ("/" ++ d.name) sp) = true →
      walkKeptDirs sp 0 sp [] subdirs = ([], [])
  | .nil, _ => rfl
  | .cons d ds, h => by
    simp only [DirList.all, Bool.and_eq_true] at h
    obtain ⟨⟨hdc, hdo⟩, hds⟩ := h
    rw [Bool.not_eq_true'] at hdo
    have hrest := walkKept_depth0 sp hsp hse ds hds
    have hlev1 : pyLevel sp (pyJoin sp d.name) = 1 :=
      pyLevel_child sp d.name hsp hse hdc hdo
    have hcut : walkDir sp 0 (pyJoin sp d.name) ([] ++ [d.name]) d = ([], []) :=
      walkDir_cutoff sp 0 (pyJoin sp d.name) ([] ++ [d.name]) d (by decide)
        (by rw [hlev1]; decide)
    simp only [walkKeptDirs]
    rw [hrest, hcut]
    by_cases hk : keepDir d = true
    · simp [hk]
    · simp only [Bool.not_eq_true] at hk
      simp [hk]

/-- With `maxDepth = 0` and a clean root, the output is exactly the root's
own entry and the root's eligible files. -/
theorem walkDir_depth0 (sp : String) (hsp : sp ≠ "") (hse : strEnds sp '/' = false)
    (nm : String) (subdirs : DirList) (files : List FileNode)
    (hch : subdirs.all (fun d => cleanName d.name && !pyContains ("/" ++ d.name) sp) = true) :
    walkDir sp 0 sp [] (.node nm subdirs files) =
      ((pyBasename sp ++ "/") :: (sortFiles files).flatMap (fileStructLines ""),
       (sortFiles files).flatMap (fileContentLines [])) := by
  have hlev0 : pyLevel sp sp = 0 := pyLevel_self sp hsp
  have hsub := walkKept_depth0 sp hsp hse subdirs hch
  have hde : dirEntry sp sp = pyBasename sp ++ "/" := by
    unfold dirEntry
    rw [hlev0]
    simp
  have hind : strRepeat "│   " (pyLevel sp sp) = "" := by
    rw [hlev0]
    rfl
  simp only [walkDir]
  rw [if_neg (by rw [hlev0]; decide), hsub, hde, hind]
  simp

/-- C3 (counterexample): `str.replace` deletes every occurrence of
`start_path`, not just the leading one.  With root `/b` containing a
subdirectory `b`, the walk string `"/b/b"` equals `"/b" ++ "/b"` and one
separator lies between root and subdirectory, yet the computed level is 0;
consequently with `maxDepth = 0` the output contains two directory entries
(both rendered at level 0) instead of exactly one. -/
theorem C3_counterexample :
    ("/b" ++ "/b" : String) = "/b/b" ∧
    sepCount "/b" = 1 ∧
    pyLevel "/b" "/b/b" = 0 ∧
    pyJoin "/b" "b" = "/b/b" ∧
    walkDir "/b" 0 "/b" [] (.node "b" (.cons (.node "b" .nil []) .nil) []) =
      (["b/", "b/"], []) := by decide

/-- C3 (amended): the level the code assigns to a visited directory is the
number of `'/'` characters left after deleting every occurrence of the
root path string from the directory's walk path.  When the root path is
nonempty, does not end in `'/'`, and does not reoccur inside the relative
part, this equals the number of path separators between root and
directory (the component count); a directory whose computed level exceeds
`maxDepth ≠ -1` contributes no structure entry and no content, and with
`maxDepth = 0` (and root-clean children) the output is exactly the root's
entry plus the root's own files. -/
theorem C3_depth_semantics :
    (∀ (sp : String) (comps : List String), sp ≠ "" → strEnds sp '/' = false →
      (∀ c ∈ comps, cleanName c = true) →
      pyContains (relSuffixStr comps) sp = false →
      pyLevel sp (joinPath sp comps) = comps.length) ∧
    (∀ (sp path : String) (md : Int) (rel : List String) (t : DirTree),
      md ≠ -1 → (pyLevel sp path : Int) > md →
      walkDir sp md path rel t = ([], [])) ∧
    (∀ (sp nm : String) (subdirs : DirList) (files : List FileNode),
      sp ≠ "" → strEnds sp '/' = false →
      subdirs.all (fun d => cleanName d.name && !pyContains ("/" ++ d.name) sp) = true →
      walkDir sp 0 sp [] (.node nm subdirs files) =
        ((pyBasename sp ++ "/") :: (sortFiles files).flatMap (fileStructLines ""),
         (sortFiles files).flatMap (fileContentLines []))) := by
  refine ⟨?_, fun sp path md rel t => walkDir_cutoff sp md path rel t,
    fun sp nm subdirs files h1 h2 h3 => walkDir_depth0 sp h1 h2 nm subdirs files h3⟩
  intro sp comps hsp hse hcl hocc
  rw [joinPath_clean comps sp hsp hse hcl]
  unfold pyLevel
  rw [pyReplace_strip sp (relSuffixStr comps) hsp hocc]
  exact sepCount_relSuffix comps hcl

/-- C3 (witness): concrete instances of the three parts. -/
theorem C3_depth_semantics_witness :
    pyLevel "proj" (joinPath "proj" ["src", "api"]) = 2 ∧
    walkDir "r" 0 "r/s" [] (.node "s" .nil [⟨"a.py", 1, .ok "x"⟩]) = ([], []) ∧
    walkDir "proj" 0 "proj" []
        (.node "proj" (.cons (.node "src" .nil [⟨"deep.py", 1, .ok "y"⟩]) .nil)
          [⟨"top.py", 1, .ok "x"⟩]) =
      ((pyBasename "proj" ++ "/") ::
          (sortFiles [⟨"top.py", 1, .ok "x"⟩]).flatMap (fileStructLines ""),
        (sortFiles [⟨"top.py", 1, .ok "x"⟩]).flatMap (fileContentLines [])) := by
  refine ⟨C3_depth_semantics.1 "proj" ["src", "api"] (by decide) (by decide)
      (by decide) (by decide),
    C3_depth_semantics.2.1 "r" "r/s" 0 [] (.node "s" .nil [⟨"a.py", 1, .ok "x"⟩])
      (by decide) (by rw [show pyLevel "r" "r/s" = 1 from by decide]; decide),
    C3_depth_semantics.2.2 "proj" "proj"
      (.cons (.node "src" .nil [⟨"deep.py", 1, .ok "y"⟩]) .nil)
      [⟨"top.py", 1, .ok "x"⟩] (by decide) (by decide) (by decide)⟩
